import Mathlib

/-!
Shallow embedding of the response/error normalization engine of the
`async_firebase` library (`async_firebase/utils.py`, `async_firebase/messages.py`,
`async_firebase/errors.py`).

JSON-decoded Python values are modelled by `JVal`; decoded JSON objects keep
insertion order, so Python dicts are modelled as association lists with unique
keys.  Python code that can raise is modelled in `Except String`, the error
string naming the Python exception class that would be raised.
-/

set_option autoImplicit false

namespace AsyncFirebase

/-- A value produced by decoding JSON in Python (`response.json()` / `json.loads`). -/
inductive JVal where
  | jnull
  | jbool (b : Bool)
  | jnum (n : Int)
  | jstr (s : String)
  | jarr (elems : List JVal)
  | jobj (fields : List (String × JVal))
  deriving Repr

/-- Python truthiness of a JSON-decoded value (`None`, `False`, `0`, `""`, `[]`, `{}`
are falsy, everything else truthy). -/
def JVal.truthy : JVal → Bool
  | .jnull => false
  | .jbool b => b
  | .jnum n => n != 0
  | .jstr s => s != ""
  | .jarr elems => !elems.isEmpty
  | .jobj fields => !fields.isEmpty

/-- `d.get(k)` on a decoded JSON object: `none` when the key is absent. -/
def dGet? : List (String × JVal) → String → Option JVal
  | [], _ => none
  | (k0, v0) :: rest, k => if k0 == k then some v0 else dGet? rest k

/-- `d.get(k, default)` on a decoded JSON object. -/
def dGetD (fields : List (String × JVal)) (k : String) (dflt : JVal) : JVal :=
  (dGet? fields k).getD dflt

/-- `k in d` on a decoded JSON object. -/
def dHas (fields : List (String × JVal)) (k : String) : Bool :=
  (dGet? fields k).isSome

/-- `d[k] = v` on a decoded JSON object: replaces the value in place when the key
exists (keys are unique), appends otherwise — matching dict insertion order. -/
def dSet : List (String × JVal) → String → JVal → List (String × JVal)
  | [], k, v => [(k, v)]
  | (k0, v0) :: rest, k, v =>
      if k0 == k then (k0, v) :: rest else (k0, v0) :: dSet rest k v

/-- First-match lookup in a literal table (Python `dict.get` over a constant dict). -/
def tblGet? {α β : Type} [BEq α] (tbl : List (α × β)) (k : α) : Option β :=
  (tbl.find? (fun p => p.1 == k)).map (fun p => p.2)

/-- The exception classes of `async_firebase/errors.py` that the handlers construct.
`ThirdPartyAuthError`, `QuotaExceededError`, `SenderIdMismatchError` and
`UnregisteredError` are the refined subclasses (of `UnauthenticatedError`,
`ResourceExhaustedError`, `PermissionDeniedError` and `NotFoundError` resp.). -/
inductive ExcType where
  | AsyncFirebaseError
  | DeadlineExceededError
  | UnavailableError
  | UnknownError
  | UnauthenticatedError
  | ThirdPartyAuthError
  | ResourceExhaustedError
  | QuotaExceededError
  | PermissionDeniedError
  | SenderIdMismatchError
  | NotFoundError
  | UnregisteredError
  | InvalidArgumentError
  | FailedPreconditionError
  | OutOfRangeError
  | AbortedError
  | AlreadyExistsError
  | ConflictError
  | CancelledError
  | DataLossError
  | InternalError
  deriving Repr, DecidableEq

/-- The `code` string each exception class passes to `AsyncFirebaseError.__init__`
(refined subclasses inherit the base class `__init__`, hence the base wire code).
The base class itself takes the code as an argument; the only call site in
`utils.py` passes `FcmErrorCode.UNKNOWN.value`. -/
def excTypeCode : ExcType → String
  | .AsyncFirebaseError => "UNKNOWN"
  | .DeadlineExceededError => "DEADLINE_EXCEEDED"
  | .UnavailableError => "UNAVAILABLE"
  | .UnknownError => "UNKNOWN"
  | .UnauthenticatedError => "UNAUTHENTICATED"
  | .ThirdPartyAuthError => "UNAUTHENTICATED"
  | .ResourceExhaustedError => "RESOURCE_EXHAUSTED"
  | .QuotaExceededError => "RESOURCE_EXHAUSTED"
  | .PermissionDeniedError => "PERMISSION_DENIED"
  | .SenderIdMismatchError => "PERMISSION_DENIED"
  | .NotFoundError => "NOT_FOUND"
  | .UnregisteredError => "NOT_FOUND"
  | .InvalidArgumentError => "INVALID_ARGUMENT"
  | .FailedPreconditionError => "FAILED_PRECONDITION"
  | .OutOfRangeError => "OUT_OF_RANGE"
  | .AbortedError => "ABORTED"
  | .AlreadyExistsError => "ALREADY_EXISTS"
  | .ConflictError => "CONFLICT"
  | .CancelledError => "CANCELLED"
  | .DataLossError => "DATA_LOSS"
  | .InternalError => "INTERNAL"

/-- The four refined FCM-specific exception classes. -/
def isRefined : ExcType → Bool
  | .ThirdPartyAuthError => true
  | .QuotaExceededError => true
  | .SenderIdMismatchError => true
  | .UnregisteredError => true
  | _ => false

/-- `FCMResponseHandlerBase.ERROR_CODE_TO_EXCEPTION_TYPE`. -/
def ERROR_CODE_TO_EXCEPTION_TYPE : List (String × ExcType) :=
  [("INVALID_ARGUMENT", .InvalidArgumentError),
   ("FAILED_PRECONDITION", .FailedPreconditionError),
   ("OUT_OF_RANGE", .OutOfRangeError),
   ("UNAUTHENTICATED", .UnauthenticatedError),
   ("PERMISSION_DENIED", .PermissionDeniedError),
   ("NOT_FOUND", .NotFoundError),
   ("ABORTED", .AbortedError),
   ("ALREADY_EXISTS", .AlreadyExistsError),
   ("CONFLICT", .ConflictError),
   ("RESOURCE_EXHAUSTED", .ResourceExhaustedError),
   ("CANCELLED", .CancelledError),
   ("DATA_LOSS", .DataLossError),
   ("UNKNOWN", .UnknownError),
   ("INTERNAL", .InternalError),
   ("UNAVAILABLE", .UnavailableError),
   ("DEADLINE_EXCEEDED", .DeadlineExceededError)]

/-- `FCMResponseHandlerBase.HTTP_STATUS_TO_ERROR_CODE`. -/
def HTTP_STATUS_TO_ERROR_CODE : List (Nat × String) :=
  [(400, "INVALID_ARGUMENT"),
   (401, "UNAUTHENTICATED"),
   (403, "PERMISSION_DENIED"),
   (404, "NOT_FOUND"),
   (409, "CONFLICT"),
   (412, "FAILED_PRECONDITION"),
   (429, "RESOURCE_EXHAUSTED"),
   (500, "INTERNAL"),
   (503, "UNAVAILABLE")]

/-- `FCMResponseHandlerBase.FCM_ERROR_TYPES`. -/
def FCM_ERROR_TYPES : List (String × ExcType) :=
  [("APNS_AUTH_ERROR", .ThirdPartyAuthError),
   ("QUOTA_EXCEEDED", .QuotaExceededError),
   ("SENDER_ID_MISMATCH", .SenderIdMismatchError),
   ("THIRD_PARTY_AUTH_ERROR", .ThirdPartyAuthError),
   ("UNREGISTERED", .UnregisteredError)]

/-- The provider-error discriminator constant matched against `detail["@type"]`. -/
def fcmErrorDiscriminator : String := "type.googleapis.com/google.firebase.fcm.v1.FcmError"

/-- An `httpx.Response` as the handlers consume it: the numeric status code, the
result of `response.json()` (`none` when the body is not valid JSON, in which
case `.json()` raises `ValueError`), and the raw body text used by
`response.content` in synthesized messages. -/
structure HttpResponse where
  status_code : Nat
  jsonBody : Option JVal
  content : String
  deriving Repr

/-- The single-quote character, used by Python `repr` of bytes. -/
def sq : String := String.singleton (Char.ofNat 39)

/-- Python `repr` of one byte inside a bytes literal: backslash, the quote,
tab, LF and CR are escaped; other non-printable bytes become hex escapes. -/
def pyByteRepr (c : Char) : String :=
  if c = Char.ofNat 92 then "\\\\"
  else if c = Char.ofNat 39 then "\\" ++ sq
  else if c = Char.ofNat 9 then "\\t"
  else if c = Char.ofNat 10 then "\\n"
  else if c = Char.ofNat 13 then "\\r"
  else if c.toNat < 32 || c.toNat > 126 then
    "\\x" ++ String.mk (Nat.toDigits 16 c.toNat)
  else String.singleton c

/-- Python `repr` of the response body bytes (ASCII text bodies): `b` + quoted,
escaped content — the `{response.content!r}` part of the synthesized message. -/
def pyBytesRepr (s : String) : String :=
  "b" ++ sq ++ String.join (s.toList.map pyByteRepr) ++ sq

/-- The message `_parse_platform_error` synthesizes when the decoded body carries
no usable `message`. -/
def synthesizedMessage (response : HttpResponse) : String :=
  "Unexpected HTTP response with status: " ++ toString response.status_code
    ++ "; body: " ++ pyBytesRepr response.content

/-- `FCMResponseHandlerBase._parse_platform_error`.  `response.json()` raising
`ValueError` is caught (leaving `data = {}`); but a body decoding to a non-object
JSON value, or an `"error"` member that is not an object, hits `.get` on a
non-dict and raises `AttributeError`, which is NOT caught. -/
def parsePlatformError (response : HttpResponse) : Except String (List (String × JVal)) :=
  match (response.jsonBody).getD (JVal.jobj []) with
  | .jobj fields =>
      match dGetD fields "error" (JVal.jobj []) with
      | .jobj errorData =>
          if ((dGet? errorData "message").getD JVal.jnull).truthy then
            .ok errorData
          else
            .ok (dSet errorData "message" (.jstr (synthesizedMessage response)))
      | _ => .error "AttributeError"
  | _ => .error "AttributeError"

/-- A typed error value as constructed by the handlers: the exception class, the
`code` it carries, the message (any Python value can flow into the message
argument), and the attached HTTP response when one exists. -/
structure FirebaseExc where
  etype : ExcType
  code : String
  message : JVal
  http_response : Option HttpResponse
  deriving Repr

/-- Construct an exception of a concrete class: the class `__init__` fixes `code`. -/
def mkExc (t : ExcType) (msg : JVal) (resp : Option HttpResponse) : FirebaseExc :=
  ⟨t, excTypeCode t, msg, resp⟩

/-- `FCMResponseHandlerBase._http_status_to_error_code`. -/
def httpStatusToErrorCode (http_status_code : Nat) : String :=
  (tblGet? HTTP_STATUS_TO_ERROR_CODE http_status_code).getD "UNKNOWN"

/-- `FCMResponseHandlerBase._error_code_to_exception_type` on a string code. -/
def errorCodeToExceptionTypeS (error_code : String) : ExcType :=
  (tblGet? ERROR_CODE_TO_EXCEPTION_TYPE error_code).getD .UnknownError

/-- `FCMResponseHandlerBase._error_code_to_exception_type` on an arbitrary decoded
value (the `status` member need not be a string): hashable non-string keys miss
the table, unhashable ones (`list`/`dict`) make `dict.get` raise `TypeError`. -/
def errorCodeToExceptionType : JVal → Except String ExcType
  | .jstr s => .ok (errorCodeToExceptionTypeS s)
  | .jarr _ => .error "TypeError"
  | .jobj _ => .error "TypeError"
  | _ => .ok .UnknownError

/-- The scan of `error_data["details"]` inside `_get_fcm_error_type`: the first
entry whose `@type` equals the discriminator yields that entry's `errorCode`
(`none` when the key is absent) and the loop breaks; an entry that is not a
dict raises `AttributeError` on `.get`. -/
def detailErrorCode : List JVal → Except String (Option JVal)
  | [] => .ok none
  | d :: rest =>
      match d with
      | .jobj f =>
          match dGet? f "@type" with
          | some (.jstr s) =>
              if s == fcmErrorDiscriminator then .ok (dGet? f "errorCode")
              else detailErrorCode rest
          | _ => detailErrorCode rest
      | _ => .error "AttributeError"

/-- `FCMResponseHandlerBase._get_fcm_error_type`.  `error_data.get("details", [])`
is iterated: a non-iterable value raises `TypeError`; iterating a non-empty dict
or string yields non-dict items whose `.get` raises `AttributeError`; a falsy
`errorCode` yields `None`; a truthy non-string code misses the string-keyed
table (unhashable list/dict codes raise `TypeError` in `dict.get`). -/
def getFcmErrorType (error_data : List (String × JVal)) : Except String (Option ExcType) :=
  if error_data.isEmpty then .ok none
  else
    match (match dGetD error_data "details" (.jarr []) with
           | .jarr ds => detailErrorCode ds
           | .jobj [] => .ok none
           | .jobj _ => .error "AttributeError"
           | .jstr "" => .ok none
           | .jstr _ => .error "AttributeError"
           | _ => .error "TypeError") with
    | .error s => .error s
    | .ok none => .ok none
    | .ok (some c) =>
        if !c.truthy then .ok none
        else match c with
          | .jstr s => .ok (tblGet? FCM_ERROR_TYPES s)
          | .jarr _ => .error "TypeError"
          | .jobj _ => .error "TypeError"
          | _ => .ok none

/-- `FCMResponseHandlerBase._handle_fcm_error`: the provider-specific classifier.
`error_data["message"]` is an indexing access, but `_parse_platform_error`
guarantees the key. -/
def handleFcmError (response : HttpResponse) : Except String (Option FirebaseExc) :=
  match parsePlatformError response with
  | .error s => .error s
  | .ok error_data =>
      match getFcmErrorType error_data with
      | .error s => .error s
      | .ok none => .ok none
      | .ok (some ty) =>
          match dGet? error_data "message" with
          | some msg => .ok (some (mkExc ty msg (some response)))
          | none => .error "KeyError"

/-- `FCMResponseHandlerBase._get_error_by_status_code`: the status-code
classifier for failures that do carry an HTTP response. -/
def getErrorByStatusCode (response : HttpResponse) : Except String FirebaseExc :=
  match parsePlatformError response with
  | .error s => .error s
  | .ok error_data =>
      match errorCodeToExceptionType
          (dGetD error_data "status" (.jstr (httpStatusToErrorCode response.status_code))) with
      | .error s => .error s
      | .ok errType =>
          match dGet? error_data "message" with
          | some msg => .ok (mkExc errType msg (some response))
          | none => .error "KeyError"

/-- The `httpx.HTTPError` taxonomy as `_handle_request_error` distinguishes it:
`httpx.TimeoutException`, `httpx.ConnectError`, any other error without a
`response` attribute, and `httpx.HTTPStatusError` carrying a response.
`desc` stands for `str(error)` interpolated into f-string messages. -/
inductive RequestError where
  | timeout (desc : String)
  | connectError (desc : String)
  | otherNoResponse (desc : String)
  | statusError (response : HttpResponse)
  deriving Repr

/-- `FCMResponseHandlerBase._handle_request_error`.  Note: the `UnknownError`
message in the source is a plain (non-f) string literal, so the text
`\x7berror\x7d` appears verbatim, not interpolated. -/
def handleRequestError : RequestError → Except String FirebaseExc
  | .timeout desc =>
      .ok (mkExc .DeadlineExceededError
        (.jstr ("Timed out while making an API call: " ++ desc)) none)
  | .connectError desc =>
      .ok (mkExc .UnavailableError
        (.jstr ("Failed to establish a connection: " ++ desc)) none)
  | .otherNoResponse _ =>
      .ok (mkExc .UnknownError
        (.jstr "Unknown error while making a remote service call: \x7berror\x7d") none)
  | .statusError response => getErrorByStatusCode response

/-- One decoded outcome (`messages.FCMResponse`): `message_id` is set by
`__post_init__` from `fcm_response.get("name")` when `fcm_response` is truthy
(a JSON `null` value comes back as Python `None`, indistinguishable from an
absent key); a truthy non-dict `fcm_response` raises `AttributeError`. -/
structure FCMResponseM where
  fcm_response : Option JVal
  exception : Option FirebaseExc
  message_id : Option JVal
  deriving Repr

/-- `FCMResponse.__init__` + `__post_init__`. -/
def mkFCMResponse (fcm_response : Option JVal) (exception : Option FirebaseExc) :
    Except String FCMResponseM :=
  match fcm_response with
  | none => .ok ⟨none, exception, none⟩
  | some j =>
      if j.truthy then
        match j with
        | .jobj fields =>
            let mid : Option JVal :=
              match dGet? fields "name" with
              | some .jnull => none
              | v => v
            .ok ⟨some j, exception, mid⟩
        | _ => .error "AttributeError"
      else .ok ⟨some j, exception, none⟩

/-- `FCMResponse.success`: `self.message_id is not None and not self.exception`
(exception instances are truthy). -/
def FCMResponseM.success (r : FCMResponseM) : Bool :=
  r.message_id.isSome && r.exception.isNone

/-- `FCMResponseHandlerBase._handle_response` (the success path, `decode_success`):
`response.json()` raises on an invalid JSON body. -/
def handleResponseSingle (response : HttpResponse) : Except String FCMResponseM :=
  match response.jsonBody with
  | none => .error "JSONDecodeError"
  | some j => mkFCMResponse (some j) none

/-- `FCMResponse(exception=exc)`: `fcm_response` is `None`, so `message_id` is `None`. -/
def ofException (exc : FirebaseExc) : FCMResponseM := ⟨none, some exc, none⟩

/-- `FCMResponseHandlerBase._handle_error` (the failure path, `decode_failure`):
try the provider-specific classifier first (only on `HTTPStatusError`s), fall
back to `_handle_request_error`; the trailing `or AsyncFirebaseError(...)`
branch is unreachable because `_handle_request_error` returns an (always
truthy) exception instance on every path. -/
def handleErrorSingle (error : RequestError) : Except String FCMResponseM :=
  match (match error with
         | .statusError r => handleFcmError r
         | _ => .ok none) with
  | .error s => .error s
  | .ok (some exc) => .ok (ofException exc)
  | .ok none =>
      match handleRequestError error with
      | .error s => .error s
      | .ok exc => .ok (ofException exc)

/-- `messages.FCMBatchResponse`: `success_count` is computed in `__post_init__`,
`failure_count` is derived. -/
structure FCMBatchResponseM where
  responses : List FCMResponseM
  success_count : Nat
  deriving Repr

/-- `FCMBatchResponse.__post_init__`. -/
def mkFCMBatchResponse (responses : List FCMResponseM) : FCMBatchResponseM :=
  ⟨responses, (responses.filter FCMResponseM.success).length⟩

/-- `FCMBatchResponse.failure_count`. -/
def FCMBatchResponseM.failure_count (b : FCMBatchResponseM) : Nat :=
  b.responses.length - b.success_count

/-- One part of the parsed outer MIME document, as `FeedParser` + the per-part
parsing steps of `_deserialize_batch_response` expose it: the outer `Content-ID`
header, the status code parsed from the embedded status line (`HTTP/1.1 <code>
<reason>`), the embedded `Content-Type`, the embedded response body text
(`msg.get_payload()`), and its `json.loads` result (`none` when invalid, in
which case `json.loads` raises). -/
structure MimePart where
  contentId : String
  innerStatusCode : Nat
  innerContentType : String
  innerPayload : String
  innerJson : Option JVal
  deriving Repr

/-- The outer body as `FeedParser` classifies it: a multipart document with its
parts in body order, or anything else (`is_multipart()` false — boundary
missing, not a multipart content type, or no start boundary found). -/
inductive MimeMessage where
  | multipart (parts : List MimePart)
  | nonMultipart (body : String)
  deriving Repr

/-- `part["Content-ID"].split("-", 1)[-1]`: everything after the first dash
(the whole value when there is no dash) — strips the `response-` prefix. -/
def requestIdOfContentId (cid : String) : String :=
  match cid.splitOn "-" with
  | [] => cid
  | [x] => x
  | _ :: rest => String.intercalate "-" rest

/-- The per-part tail of `_deserialize_batch_response`: build the synthetic
`httpx.Response` for one part.  `json.loads(msg.get_payload())` raises on an
invalid JSON payload.  (The synthetic response also carries `Content-Type` and
`X-Request-ID` headers — see `requestIdOfContentId` — which no classifier
reads, so they are not part of `HttpResponse`.) -/
def deserializePart (p : MimePart) : Except String HttpResponse :=
  match p.innerJson with
  | none => .error "JSONDecodeError"
  | some _ => .ok ⟨p.innerStatusCode, p.innerJson, p.innerPayload⟩

/-- Sequencing of a fallible step over a list, in order (the `for` loops of
`_deserialize_batch_response` and `handle_response`). -/
def mapExcept {α β : Type} (f : α → Except String β) : List α → Except String (List β)
  | [] => .ok []
  | x :: xs =>
      match f x with
      | .error s => .error s
      | .ok y =>
          match mapExcept f xs with
          | .error s => .error s
          | .ok ys => .ok (y :: ys)

/-- `FCMBatchResponseHandler._deserialize_batch_response`: raise `ValueError`
unless the parsed document is multipart, then convert each part in order. -/
def deserializeBatchResponse (m : MimeMessage) : Except String (List HttpResponse) :=
  match m with
  | .nonMultipart _ => .error "Response not in multipart/mixed format."
  | .multipart parts => mapExcept deserializePart parts

/-- The dispatch step of `FCMBatchResponseHandler.handle_response` for one
deserialized part: failure path for status >= 300, success path otherwise. -/
def handlePart (p : HttpResponse) : Except String FCMResponseM :=
  if p.status_code ≥ 300 then handleErrorSingle (.statusError p)
  else handleResponseSingle p

/-- `FCMBatchResponseHandler.handle_response` (`decode_batch`). -/
def batchHandleResponse (m : MimeMessage) : Except String FCMBatchResponseM :=
  match deserializeBatchResponse m with
  | .error s => .error s
  | .ok parts =>
      match mapExcept handlePart parts with
      | .error s => .error s
      | .ok rs => .ok (mkFCMBatchResponse rs)

/-- `FCMBatchResponseHandler.handle_error`: wrap the one classified outcome. -/
def batchHandleError (error : RequestError) : Except String FCMBatchResponseM :=
  match handleErrorSingle error with
  | .error s => .error s
  | .ok r => .ok (mkFCMBatchResponse [r])

/-- `messages.TopicManagementErrorInfo`. -/
structure TopicErrorInfo where
  index : Nat
  reason : JVal
  deriving Repr

/-- The mutable counters of `messages.TopicManagementResponse`. -/
structure TopicResultM where
  success_count : Nat
  failure_count : Nat
  errors : List TopicErrorInfo
  deriving Repr

/-- `"error" in result` followed by `result["error"]` for one entry of the
`results` array.  A dict entry is the intended case; `in` on a string is a
substring test and on a list a membership test, after which the `result["error"]`
indexing raises `TypeError`; `in` on any other value raises `TypeError` at once. -/
def topicStepEntry (index : Nat) (entry : JVal) (acc : TopicResultM) :
    Except String TopicResultM :=
  match entry with
  | .jobj f =>
      if dHas f "error" then
        match dGet? f "error" with
        | some reason =>
            .ok ⟨acc.success_count, acc.failure_count + 1, acc.errors ++ [⟨index, reason⟩]⟩
        | none => .error "KeyError"
      else .ok ⟨acc.success_count + 1, acc.failure_count, acc.errors⟩
  | .jstr s =>
      if (s.splitOn "error").length > 1 then .error "TypeError"
      else .ok ⟨acc.success_count + 1, acc.failure_count, acc.errors⟩
  | .jarr xs =>
      if xs.any (fun x => match x with | .jstr t => t == "error" | _ => false) then
        .error "TypeError"
      else .ok ⟨acc.success_count + 1, acc.failure_count, acc.errors⟩
  | _ => .error "TypeError"

/-- The `for index, result in enumerate(results)` loop of
`TopicManagementResponse._handle_response`. -/
def topicProcessResults (entries : List JVal) (index : Nat) (acc : TopicResultM) :
    Except String TopicResultM :=
  match entries with
  | [] => .ok acc
  | e :: rest =>
      match topicStepEntry index e acc with
      | .error s => .error s
      | .ok acc2 => topicProcessResults rest (index + 1) acc2

/-- `TopicManagementResponse._handle_response` (`decode_topic_result`): raise
`ValueError` when `response.get("results")` is falsy (absent key, `null`, empty
array, ...), otherwise iterate the entries.  Iterating a truthy string yields
its one-character strings, a truthy dict its string keys; a truthy number or
`True` is not iterable.  A non-object JSON body raises `AttributeError` on
`.get`; a body that is not valid JSON raises in `resp.json()`. -/
def topicHandleResponse (response : HttpResponse) : Except String TopicResultM :=
  match response.jsonBody with
  | none => .error "JSONDecodeError"
  | some body =>
      match body with
      | .jobj fields =>
          let results := dGetD fields "results" .jnull
          if !results.truthy then .error "ValueError"
          else
            match results with
            | .jarr entries => topicProcessResults entries 0 ⟨0, 0, []⟩
            | .jstr s =>
                topicProcessResults (s.toList.map (fun c => .jstr (String.singleton c))) 0 ⟨0, 0, []⟩
            | .jobj f => topicProcessResults (f.map (fun p => .jstr p.1)) 0 ⟨0, 0, []⟩
            | _ => .error "TypeError"
      | _ => .error "AttributeError"

/-- Whether one `results` entry counts as a failure: it is an object with an
`"error"` key (used to state the topic-decoding property). -/
def entryHasError : JVal → Bool
  | .jobj f => dHas f "error"
  | _ => false

/-- The per-index error records the topic decoder is expected to accumulate,
starting at index `i` (used to state the topic-decoding property). -/
def expectedTopicErrorsFrom : Nat → List JVal → List TopicErrorInfo
  | _, [] => []
  | i, e :: rest =>
      match e with
      | .jobj f =>
          match dGet? f "error" with
          | some reason => ⟨i, reason⟩ :: expectedTopicErrorsFrom (i + 1) rest
          | none => expectedTopicErrorsFrom (i + 1) rest
      | _ => expectedTopicErrorsFrom (i + 1) rest

/-! Helper lemmas. -/

theorem dGet?_dSet_self (fs : List (String × JVal)) (k : String) (v : JVal) :
    dGet? (dSet fs k v) k = some v := by
  induction fs with
  | nil => simp [dSet, dGet?]
  | cons p rest ih =>
      obtain ⟨k0, v0⟩ := p
      cases h : (k0 == k) with
      | true => simp [dSet, dGet?, h]
      | false => simp [dSet, dGet?, h, ih]

theorem synthesizedMessage_ne (r : HttpResponse) : synthesizedMessage r ≠ "" := by
  unfold synthesizedMessage
  intro h
  have hl := congrArg String.length h
  have h38 : ("Unexpected HTTP response with status: ").length = 38 := by decide
  simp [String.length_append, h38] at hl

theorem tblGet?_mem {α β : Type} [BEq α] [LawfulBEq α] (tbl : List (α × β)) (k : α) (b : β)
    (h : tblGet? tbl k = some b) : (k, b) ∈ tbl := by
  unfold tblGet? at h
  cases hf : tbl.find? (fun p => p.1 == k) with
  | none => rw [hf] at h; cases h
  | some p =>
      rw [hf] at h
      have hmem := List.mem_of_find?_eq_some hf
      have hkey := List.find?_some hf
      obtain ⟨p1, p2⟩ := p
      simp at hkey h
      subst hkey
      subst h
      exact hmem

theorem tblGet?_eq_none {α β : Type} [BEq α] [LawfulBEq α] (tbl : List (α × β)) (k : α)
    (h : k ∉ tbl.map Prod.fst) : tblGet? tbl k = none := by
  unfold tblGet?
  cases hf : tbl.find? (fun p => p.1 == k) with
  | none => rfl
  | some p =>
      exfalso
      have hmem := List.mem_of_find?_eq_some hf
      have hkey := List.find?_some hf
      simp at hkey
      exact h (List.mem_map.mpr ⟨p, hmem, hkey⟩)

theorem httpStatusToErrorCode_mem (n : Nat) :
    httpStatusToErrorCode n = "UNKNOWN" ∨
      httpStatusToErrorCode n ∈ HTTP_STATUS_TO_ERROR_CODE.map Prod.snd := by
  unfold httpStatusToErrorCode
  cases hf : tblGet? HTTP_STATUS_TO_ERROR_CODE n with
  | none => left; rfl
  | some s =>
      right
      have hmem := tblGet?_mem _ _ _ hf
      simp only [Option.getD_some]
      exact List.mem_map.mpr ⟨(n, s), hmem, rfl⟩

theorem errorCodeToExceptionTypeS_not_refined (s : String) :
    isRefined (errorCodeToExceptionTypeS s) = false := by
  unfold errorCodeToExceptionTypeS
  cases hf : tblGet? ERROR_CODE_TO_EXCEPTION_TYPE s with
  | none => rfl
  | some ty =>
      have hmem := tblGet?_mem _ _ _ hf
      have hall : ∀ p ∈ ERROR_CODE_TO_EXCEPTION_TYPE, isRefined p.2 = false := by decide
      simpa using hall _ hmem

theorem parse_message_truthy (r : HttpResponse) (ed : List (String × JVal))
    (h : parsePlatformError r = .ok ed) :
    ∃ m, dGet? ed "message" = some m ∧ m.truthy = true := by
  unfold parsePlatformError at h
  split at h
  case h_2 => cases h
  case h_1 fields heq =>
    split at h
    case h_2 => cases h
    case h_1 errorData heq2 =>
      split at h
      case isTrue errorData heq2 hc =>
        injection h with h
        subst h
        cases hm : dGet? errorData "message" with
        | none => rw [hm] at hc; simp [JVal.truthy] at hc
        | some m =>
            rw [hm] at hc
            simp only [Option.getD_some] at hc
            exact ⟨m, rfl, hc⟩
      case isFalse hc =>
        injection h with h
        subst h
        refine ⟨.jstr (synthesizedMessage r), dGet?_dSet_self _ _ _, ?_⟩
        simpa [JVal.truthy] using synthesizedMessage_ne r

theorem parse_nonempty (r : HttpResponse) (ed : List (String × JVal))
    (h : parsePlatformError r = .ok ed) : ed.isEmpty = false := by
  obtain ⟨m, hm, -⟩ := parse_message_truthy r ed h
  cases ed with
  | nil => cases hm
  | cons p rest => rfl

theorem statusFallback (r : HttpResponse) (h : handleFcmError r = .ok none) :
    handleErrorSingle (.statusError r) = (getErrorByStatusCode r).map ofException := by
  unfold handleErrorSingle handleRequestError
  simp only [h]
  cases hg : getErrorByStatusCode r <;> simp [Except.map]

theorem handleErrorSingle_shape (e : RequestError) (out : FCMResponseM)
    (h : handleErrorSingle e = .ok out) : ∃ exc, out = ofException exc := by
  unfold handleErrorSingle at h
  split at h
  case h_1 => cases h
  case h_2 exc heq =>
      injection h with h
      exact ⟨exc, h.symm⟩
  case h_3 =>
      split at h
      case h_1 => cases h
      case h_2 exc heq =>
          injection h with h
          exact ⟨exc, h.symm⟩

theorem mapExcept_ok {α β : Type} (f : α → Except String β) :
    ∀ (xs : List α) (ys : List β), mapExcept f xs = .ok ys →
      ys.length = xs.length ∧
      ∀ i (h1 : i < xs.length) (h2 : i < ys.length),
        f (xs.get ⟨i, h1⟩) = .ok (ys.get ⟨i, h2⟩) := by
  intro xs
  induction xs with
  | nil =>
      intro ys h
      unfold mapExcept at h
      injection h with h
      subst h
      exact ⟨rfl, fun i h1 h2 => absurd h1 (by simp)⟩
  | cons x rest ih =>
      intro ys h
      unfold mapExcept at h
      split at h
      case h_1 => cases h
      case h_2 y hy =>
        split at h
        case h_1 => cases h
        case h_2 ys' hys =>
          injection h with h
          subst h
          obtain ⟨hlen, hidx⟩ := ih ys' hys
          constructor
          · simp [hlen]
          · intro i h1 h2
            cases i with
            | zero => simpa using hy
            | succ j =>
                have hj1 : j < rest.length := by simpa using h1
                have hj2 : j < ys'.length := by simpa using h2
                simpa using hidx j hj1 hj2

/-! Claim theorems. -/

/-- C6: for every batch built by the aggregator (`FCMBatchResponse.__post_init__`,
used by both `decode_batch` and `handle_error`), `success_count + failure_count`
equals the number of outcomes and `success_count` counts the outcomes whose
derived `success` predicate holds. -/
theorem batch_count_invariant (responses : List FCMResponseM) :
    (mkFCMBatchResponse responses).success_count
        + (mkFCMBatchResponse responses).failure_count = responses.length ∧
    (mkFCMBatchResponse responses).success_count
        = (responses.filter FCMResponseM.success).length := by
  constructor
  · have hle : (responses.filter FCMResponseM.success).length ≤ responses.length :=
      List.length_filter_le _ _
    exact Nat.add_sub_cancel' hle
  · rfl

/-- C7: feeding a response whose body is not a valid multipart document to
`decode_batch` raises `ValueError` rather than returning an empty or default
batch. -/
theorem malformed_multipart_raises (body : String) :
    batchHandleResponse (.nonMultipart body)
      = .error "Response not in multipart/mixed format." := rfl

/-- C3 counterexample: `decode_success` on a 200 response whose JSON body is an
object without a `name` key yields an outcome with `message_id` absent AND
`error` absent — "never neither" fails. -/
theorem outcome_exclusivity_cex :
    handleResponseSingle ⟨200, some (JVal.jobj []), "\x7b\x7d"⟩
        = .ok ⟨some (JVal.jobj []), none, none⟩ ∧
    (FCMResponseM.mk (some (JVal.jobj [])) none none).message_id = none ∧
    (FCMResponseM.mk (some (JVal.jobj [])) none none).exception = none :=
  ⟨rfl, rfl, rfl⟩

/-- C3 (amended): every failure outcome has `error` present and `message_id`
absent; every success outcome has `error` absent, and `message_id` present
exactly when the response body is a non-empty JSON object with a non-null
`name` member — a success body without such a `name` yields neither. -/
theorem outcome_exclusivity_amended :
    (∀ (e : RequestError) (out : FCMResponseM), handleErrorSingle e = .ok out →
        out.exception.isSome = true ∧ out.message_id = none) ∧
    (∀ (r : HttpResponse) (out : FCMResponseM), handleResponseSingle r = .ok out →
        out.exception = none ∧
        (out.message_id.isSome = true ↔
          ∃ fields v, r.jsonBody = some (.jobj fields) ∧ fields ≠ [] ∧
            dGet? fields "name" = some v ∧ v ≠ .jnull)) := by
  constructor
  · intro e out h
    obtain ⟨exc, rfl⟩ := handleErrorSingle_shape e out h
    exact ⟨rfl, rfl⟩
  · intro r out h
    unfold handleResponseSingle at h
    cases hb : r.jsonBody with
    | none => rw [hb] at h; cases h
    | some j =>
        rw [hb] at h
        simp only [mkFCMResponse] at h
        split at h
        case isTrue ht =>
          split at h
          case h_2 => cases h
          case h_1 fields =>
            injection h with h
            subst h
            refine ⟨rfl, ?_⟩
            have hne : fields ≠ [] := by
              intro hf
              subst hf
              simp [JVal.truthy] at ht
            cases hn : dGet? fields "name" with
            | none =>
                simp only [hn]
                constructor
                · intro hfalse; cases hfalse
                · rintro ⟨fields2, v, hf2, -, hdg, -⟩
                  injection hf2 with hf2
                  injection hf2 with hf2
                  subst hf2
                  rw [hn] at hdg
                  cases hdg
            | some v =>
                cases v with
                | jnull =>
                    simp only [hn]
                    constructor
                    · intro hfalse; cases hfalse
                    · rintro ⟨fields2, v2, hf2, -, hdg, hv2⟩
                      injection hf2 with hf2
                      injection hf2 with hf2
                      subst hf2
                      rw [hn] at hdg
                      injection hdg with hdg
                      exact absurd hdg.symm hv2
                | jbool b =>
                    simp only [hn]
                    exact ⟨fun _ => ⟨fields, .jbool b, rfl, hne, hn, by intro hh; cases hh⟩,
                           fun _ => rfl⟩
                | jnum n =>
                    simp only [hn]
                    exact ⟨fun _ => ⟨fields, .jnum n, rfl, hne, hn, by intro hh; cases hh⟩,
                           fun _ => rfl⟩
                | jstr s =>
                    simp only [hn]
                    exact ⟨fun _ => ⟨fields, .jstr s, rfl, hne, hn, by intro hh; cases hh⟩,
                           fun _ => rfl⟩
                | jarr xs =>
                    simp only [hn]
                    exact ⟨fun _ => ⟨fields, .jarr xs, rfl, hne, hn, by intro hh; cases hh⟩,
                           fun _ => rfl⟩
                | jobj fs =>
                    simp only [hn]
                    exact ⟨fun _ => ⟨fields, .jobj fs, rfl, hne, hn, by intro hh; cases hh⟩,
                           fun _ => rfl⟩
        case isFalse ht =>
          injection h with h
          subst h
          refine ⟨rfl, ?_⟩
          constructor
          · intro hfalse; cases hfalse
          · rintro ⟨fields2, v2, hf2, hne2, -, -⟩
            injection hf2 with hf2
            subst hf2
            cases fields2 with
            | nil => exact absurd rfl hne2
            | cons p rest => exact absurd rfl ht

/-- C3 (amended) witness: a concrete failure outcome (timeout) and a concrete
success outcome carrying `name`. -/
theorem outcome_exclusivity_amended_witness :
    ((ofException (mkExc .DeadlineExceededError
        (.jstr "Timed out while making an API call: t") none)).exception.isSome = true ∧
     (ofException (mkExc .DeadlineExceededError
        (.jstr "Timed out while making an API call: t") none)).message_id = none) ∧
    ((FCMResponseM.mk (some (JVal.jobj [("name", JVal.jstr "A")])) none
        (some (JVal.jstr "A"))).exception = none ∧
     ((FCMResponseM.mk (some (JVal.jobj [("name", JVal.jstr "A")])) none
        (some (JVal.jstr "A"))).message_id.isSome = true ↔
       ∃ fields v,
         (HttpResponse.mk 200 (some (JVal.jobj [("name", JVal.jstr "A")])) "").jsonBody
             = some (.jobj fields) ∧ fields ≠ [] ∧
           dGet? fields "name" = some v ∧ v ≠ .jnull)) :=
  ⟨outcome_exclusivity_amended.1 (.timeout "t") _ rfl,
   outcome_exclusivity_amended.2 ⟨200, some (.jobj [("name", .jstr "A")]), ""⟩ _ rfl⟩

/-- C5 counterexample: a transport failure carrying no response yields kind
UNKNOWN, but its message is the verbatim source literal (the `f` prefix is
missing in the source, so the placeholder is not interpolated), which is not
the message the claim states. -/
theorem transport_unknown_message_cex :
    handleRequestError (.otherNoResponse "boom")
        = .ok (mkExc .UnknownError
            (.jstr "Unknown error while making a remote service call: \x7berror\x7d") none) ∧
    "Unknown error while making a remote service call: \x7berror\x7d"
        ≠ "unknown error while making a remote call" :=
  ⟨rfl, by decide⟩

/-- C5 (amended): `decode_failure` classifies transport failures in order —
timeout to DEADLINE_EXCEEDED with a timeout message, connection failure to
UNAVAILABLE, no-response failure to UNKNOWN with the verbatim literal message
`Unknown error while making a remote service call: \x7berror\x7d`, and only
failures carrying a response proceed to status-code classification. -/
theorem transport_order_amended :
    (∀ desc, handleErrorSingle (.timeout desc)
        = .ok (ofException (mkExc .DeadlineExceededError
            (.jstr ("Timed out while making an API call: " ++ desc)) none))) ∧
    (∀ desc, handleErrorSingle (.connectError desc)
        = .ok (ofException (mkExc .UnavailableError
            (.jstr ("Failed to establish a connection: " ++ desc)) none))) ∧
    (∀ desc, handleErrorSingle (.otherNoResponse desc)
        = .ok (ofException (mkExc .UnknownError
            (.jstr "Unknown error while making a remote service call: \x7berror\x7d") none))) ∧
    (∀ r, handleFcmError r = .ok none →
        handleErrorSingle (.statusError r) = (getErrorByStatusCode r).map ofException) :=
  ⟨fun _ => rfl, fun _ => rfl, fun _ => rfl, statusFallback⟩

/-- C5 (amended) witness: the status-error fallback conjunct applied to a
concrete 404 response with no provider details. -/
theorem transport_order_amended_witness :
    handleErrorSingle (.statusError ⟨404, none, "x"⟩)
      = (getErrorByStatusCode ⟨404, none, "x"⟩).map ofException :=
  transport_order_amended.2.2.2 ⟨404, none, "x"⟩ rfl

/-- C9 counterexample: a body that parses to non-object JSON (here an empty
array) makes the status-code classifier raise `AttributeError` — it is not
true that it never throws. -/
theorem classifier_crash_cex :
    getErrorByStatusCode ⟨400, some (JVal.jarr []), "[]"⟩ = .error "AttributeError" := rfl

/-- C9 (amended): the classifier never throws for a body that is not valid
JSON — it degrades to the synthesized non-empty message
`Unexpected HTTP response with status: \x7bcode\x7d; body: \x7braw_bytes\x7d` —
nor for a body that decodes to a JSON object whose `error` member, when
present, is itself an object; and every decoded error payload it returns
carries a truthy `message`.  (Bodies decoding to non-object JSON, or with a
non-object `error` member, raise `AttributeError`.) -/
theorem classifier_degrade_amended :
    (∀ (code : Nat) (raw : String),
        getErrorByStatusCode ⟨code, none, raw⟩
          = .ok (mkExc (errorCodeToExceptionTypeS (httpStatusToErrorCode code))
              (.jstr (synthesizedMessage ⟨code, none, raw⟩)) (some ⟨code, none, raw⟩)) ∧
        synthesizedMessage ⟨code, none, raw⟩ ≠ "") ∧
    (∀ (r : HttpResponse) (ed : List (String × JVal)), parsePlatformError r = .ok ed →
        ∃ m, dGet? ed "message" = some m ∧ m.truthy = true) ∧
    (∀ (code : Nat) (raw : String) (fields : List (String × JVal)),
        (∀ ev, dGet? fields "error" = some ev → ∃ ef, ev = .jobj ef) →
        (parsePlatformError ⟨code, some (.jobj fields), raw⟩).isOk = true) := by
  refine ⟨fun code raw => ⟨rfl, synthesizedMessage_ne _⟩, parse_message_truthy, ?_⟩
  intro code raw fields h
  unfold parsePlatformError
  simp only [Option.getD_some]
  cases hd : dGet? fields "error" with
  | none =>
      simp only [dGetD, hd, Option.getD_none]
      rfl
  | some ev =>
      obtain ⟨ef, rfl⟩ := h ev hd
      simp only [dGetD, hd, Option.getD_some]
      split <;> rfl

/-- C9 (amended) witness: the degrade path at status 418 with an unparseable
body, a parsed payload carrying a message, and a parse that succeeds on an
object-shaped error body. -/
theorem classifier_degrade_amended_witness :
    (getErrorByStatusCode ⟨418, none, "teapot"⟩
        = .ok (mkExc (errorCodeToExceptionTypeS (httpStatusToErrorCode 418))
            (.jstr (synthesizedMessage ⟨418, none, "teapot"⟩)) (some ⟨418, none, "teapot"⟩))
      ∧ synthesizedMessage ⟨418, none, "teapot"⟩ ≠ "") ∧
    (∃ m, dGet? [("message", JVal.jstr "hi")] "message" = some m ∧ m.truthy = true) ∧
    (parsePlatformError
        ⟨400, some (.jobj [("error", .jobj [("message", .jstr "hi")])]), "x"⟩).isOk = true := by
  refine ⟨classifier_degrade_amended.1 418 "teapot",
          classifier_degrade_amended.2.1
            ⟨400, some (.jobj [("error", .jobj [("message", .jstr "hi")])]), "x"⟩
            [("message", JVal.jstr "hi")] rfl,
          classifier_degrade_amended.2.2 400 "x" [("error", .jobj [("message", .jstr "hi")])] ?_⟩
  intro ev hev
  simp [dGet?] at hev
  exact ⟨_, hev.symm⟩

/-- C10 counterexample: an HTTP-status failure whose body decodes to JSON
`null` makes the batch error handler raise `AttributeError` instead of
returning a one-outcome batch. -/
theorem batch_error_raises_cex :
    batchHandleError (.statusError ⟨500, some JVal.jnull, "null"⟩)
      = .error "AttributeError" := rfl

/-- C10 (amended): the batch error handler never raises for transport-level
failures, and whenever it returns it returns a batch of exactly one outcome
whose error is the classified exception, so `success_count` is 0 and
`failure_count` is 1.  (Status failures whose bodies decode to non-object
JSON raise instead.) -/
theorem batch_error_single_outcome_amended :
    (∀ desc : String,
        (batchHandleError (.timeout desc)).isOk = true ∧
        (batchHandleError (.connectError desc)).isOk = true ∧
        (batchHandleError (.otherNoResponse desc)).isOk = true) ∧
    (∀ (e : RequestError) (b : FCMBatchResponseM), batchHandleError e = .ok b →
        b.responses.length = 1 ∧ b.success_count = 0 ∧ b.failure_count = 1 ∧
        ∃ exc, b.responses = [ofException exc]) := by
  constructor
  · intro desc
    exact ⟨rfl, rfl, rfl⟩
  · intro e b h
    unfold batchHandleError at h
    split at h
    case h_1 => cases h
    case h_2 r hr =>
        obtain ⟨exc, rfl⟩ := handleErrorSingle_shape e r hr
        injection h with h
        subst h
        exact ⟨rfl, rfl, rfl, exc, rfl⟩

/-- C10 (amended) witness: a concrete timeout produces a one-outcome batch
with the counts the claim states. -/
theorem batch_error_single_outcome_amended_witness :
    (mkFCMBatchResponse [ofException (mkExc .DeadlineExceededError
        (.jstr "Timed out while making an API call: t") none)]).responses.length = 1 ∧
    (mkFCMBatchResponse [ofException (mkExc .DeadlineExceededError
        (.jstr "Timed out while making an API call: t") none)]).success_count = 0 ∧
    (mkFCMBatchResponse [ofException (mkExc .DeadlineExceededError
        (.jstr "Timed out while making an API call: t") none)]).failure_count = 1 ∧
    ∃ exc, (mkFCMBatchResponse [ofException (mkExc .DeadlineExceededError
        (.jstr "Timed out while making an API call: t") none)]).responses = [ofException exc] :=
  batch_error_single_outcome_amended.2 (.timeout "t") _ rfl

theorem fcmTable_props (c : String) (ty : ExcType)
    (h : tblGet? FCM_ERROR_TYPES c = some ty) : isRefined ty = true ∧ c ≠ "" := by
  have hmem := tblGet?_mem _ _ _ h
  have hall : ∀ p ∈ FCM_ERROR_TYPES, isRefined p.2 = true ∧ p.1 ≠ "" := by decide
  exact hall _ hmem

/-- C1: when the decoded failure body carries a `details` entry with the FCM
discriminator and a recognized `errorCode`, `decode_failure` yields the refined
exception class from `FCM_ERROR_TYPES` — which is never a class the
status-code pipeline can produce — and the status-code classifier runs only
when the provider classifier yields nothing. -/
theorem fcm_provider_precedence
    (r : HttpResponse) (ed : List (String × JVal)) (ds : List JVal)
    (c : String) (ty : ExcType) (m : JVal)
    (hparse : parsePlatformError r = .ok ed)
    (hdetails : dGet? ed "details" = some (.jarr ds))
    (hcode : detailErrorCode ds = .ok (some (.jstr c)))
    (htbl : tblGet? FCM_ERROR_TYPES c = some ty)
    (hmsg : dGet? ed "message" = some m) :
    handleErrorSingle (.statusError r) = .ok (ofException (mkExc ty m (some r))) ∧
    isRefined ty = true ∧
    (∀ n : Nat, errorCodeToExceptionTypeS (httpStatusToErrorCode n) ≠ ty) ∧
    (∀ r2, handleFcmError r2 = .ok none →
        handleErrorSingle (.statusError r2) = (getErrorByStatusCode r2).map ofException) := by
  obtain ⟨hrefined, hcne⟩ := fcmTable_props c ty htbl
  have hne : ed.isEmpty = false := parse_nonempty r ed hparse
  have htruthy : (JVal.jstr c).truthy = true := by
    simp [JVal.truthy, hcne]
  have hty : getFcmErrorType ed = .ok (some ty) := by
    unfold getFcmErrorType
    rw [hne]
    simp only [Bool.false_eq_true, if_false, dGetD, hdetails, Option.getD_some, hcode,
      htruthy, Bool.not_true, htbl]
  have hfcm : handleFcmError r = .ok (some (mkExc ty m (some r))) := by
    unfold handleFcmError
    simp only [hparse, hty, hmsg]
  refine ⟨?_, hrefined, ?_, statusFallback⟩
  · unfold handleErrorSingle
    simp only [hfcm]
  · intro n heq
    have h1 := errorCodeToExceptionTypeS_not_refined (httpStatusToErrorCode n)
    rw [heq, hrefined] at h1
    cases h1

/-- C1 witness: a 404 response whose body carries the FCM discriminator with
`errorCode` UNREGISTERED resolves to `UnregisteredError`, not `NotFoundError`. -/
theorem fcm_provider_precedence_witness :
    handleErrorSingle (.statusError ⟨404,
        some (.jobj [("error", .jobj
          [("message", .jstr "bad token"), ("status", .jstr "NOT_FOUND"),
           ("details", .jarr [.jobj
             [("@type", .jstr "type.googleapis.com/google.firebase.fcm.v1.FcmError"),
              ("errorCode", .jstr "UNREGISTERED")]])])]), "x"⟩)
      = .ok (ofException (mkExc .UnregisteredError (.jstr "bad token")
          (some ⟨404,
            some (.jobj [("error", .jobj
              [("message", .jstr "bad token"), ("status", .jstr "NOT_FOUND"),
               ("details", .jarr [.jobj
                 [("@type", .jstr "type.googleapis.com/google.firebase.fcm.v1.FcmError"),
                  ("errorCode", .jstr "UNREGISTERED")]])])]), "x"⟩))) ∧
    isRefined .UnregisteredError = true ∧
    (∀ n : Nat, errorCodeToExceptionTypeS (httpStatusToErrorCode n) ≠ .UnregisteredError) ∧
    (∀ r2, handleFcmError r2 = .ok none →
        handleErrorSingle (.statusError r2) = (getErrorByStatusCode r2).map ofException) :=
  fcm_provider_precedence
    ⟨404,
      some (.jobj [("error", .jobj
        [("message", .jstr "bad token"), ("status", .jstr "NOT_FOUND"),
         ("details", .jarr [.jobj
           [("@type", .jstr "type.googleapis.com/google.firebase.fcm.v1.FcmError"),
            ("errorCode", .jstr "UNREGISTERED")]])])]), "x"⟩
    [("message", .jstr "bad token"), ("status", .jstr "NOT_FOUND"),
     ("details", .jarr [.jobj
       [("@type", .jstr "type.googleapis.com/google.firebase.fcm.v1.FcmError"),
        ("errorCode", .jstr "UNREGISTERED")]])]
    [.jobj [("@type", .jstr "type.googleapis.com/google.firebase.fcm.v1.FcmError"),
            ("errorCode", .jstr "UNREGISTERED")]]
    "UNREGISTERED" .UnregisteredError (.jstr "bad token") rfl rfl rfl rfl rfl

/-- C4: with no usable `status` field in the decoded error body, the HTTP
status code is mapped through the fixed table (400→INVALID_ARGUMENT, ...,
503→UNAVAILABLE), every status code outside the table maps to UNKNOWN, an
unrecognized `status` string resolves to UNKNOWN, and the exception class
produced always carries the mapped code. -/
theorem status_table_classification
    (r : HttpResponse) (ed : List (String × JVal)) (m : JVal)
    (hparse : parsePlatformError r = .ok ed)
    (hnostatus : dGet? ed "status" = none)
    (hmsg : dGet? ed "message" = some m) :
    getErrorByStatusCode r
        = .ok (mkExc (errorCodeToExceptionTypeS (httpStatusToErrorCode r.status_code))
            m (some r)) ∧
    httpStatusToErrorCode 400 = "INVALID_ARGUMENT" ∧
    httpStatusToErrorCode 401 = "UNAUTHENTICATED" ∧
    httpStatusToErrorCode 403 = "PERMISSION_DENIED" ∧
    httpStatusToErrorCode 404 = "NOT_FOUND" ∧
    httpStatusToErrorCode 409 = "CONFLICT" ∧
    httpStatusToErrorCode 412 = "FAILED_PRECONDITION" ∧
    httpStatusToErrorCode 429 = "RESOURCE_EXHAUSTED" ∧
    httpStatusToErrorCode 500 = "INTERNAL" ∧
    httpStatusToErrorCode 503 = "UNAVAILABLE" ∧
    (∀ n : Nat, n ∉ HTTP_STATUS_TO_ERROR_CODE.map Prod.fst →
        httpStatusToErrorCode n = "UNKNOWN") ∧
    (∀ s : String, s ∉ ERROR_CODE_TO_EXCEPTION_TYPE.map Prod.fst →
        errorCodeToExceptionTypeS s = .UnknownError) ∧
    (∀ n : Nat, excTypeCode (errorCodeToExceptionTypeS (httpStatusToErrorCode n))
        = httpStatusToErrorCode n) := by
  refine ⟨?_, by decide, by decide, by decide, by decide, by decide, by decide, by decide,
          by decide, by decide, ?_, ?_, ?_⟩
  · unfold getErrorByStatusCode
    simp only [hparse, dGetD, hnostatus, Option.getD_none, errorCodeToExceptionType, hmsg]
  · intro n hn
    unfold httpStatusToErrorCode
    rw [tblGet?_eq_none _ _ hn]
    rfl
  · intro s hs
    unfold errorCodeToExceptionTypeS
    rw [tblGet?_eq_none _ _ hs]
    rfl
  · intro n
    have hall : ∀ s ∈ HTTP_STATUS_TO_ERROR_CODE.map Prod.snd,
        excTypeCode (errorCodeToExceptionTypeS s) = s := by decide
    cases httpStatusToErrorCode_mem n with
    | inl h => rw [h]; decide
    | inr h => exact hall _ h

/-- C4 witness: a 404 with an unparseable body resolves through the table to
`NotFoundError`; 418 is outside the table; `BOGUS` is an unrecognized status. -/
theorem status_table_classification_witness :
    (getErrorByStatusCode ⟨404, none, "x"⟩
        = .ok (mkExc (errorCodeToExceptionTypeS (httpStatusToErrorCode 404))
            (.jstr (synthesizedMessage ⟨404, none, "x"⟩)) (some ⟨404, none, "x"⟩))) ∧
    httpStatusToErrorCode 404 = "NOT_FOUND" ∧
    httpStatusToErrorCode 418 = "UNKNOWN" ∧
    errorCodeToExceptionTypeS "BOGUS" = .UnknownError := by
  have h := status_table_classification ⟨404, none, "x"⟩
    [("message", .jstr (synthesizedMessage ⟨404, none, "x"⟩))]
    (.jstr (synthesizedMessage ⟨404, none, "x"⟩)) rfl rfl rfl
  exact ⟨h.1, h.2.2.2.2.1, h.2.2.2.2.2.2.2.2.2.2.1 418 (by decide),
         h.2.2.2.2.2.2.2.2.2.2.2.1 "BOGUS" (by decide)⟩

/-- C2: for every multipart batch whose decoding succeeds, the result has
exactly one outcome per part, in part order, where outcome `i` is produced
from the synthetic response of part `i` via the failure path when the
embedded status code is >= 300 and via the success path otherwise. -/
theorem batch_decode_ordered
    (parts : List MimePart) (b : FCMBatchResponseM)
    (h : batchHandleResponse (.multipart parts) = .ok b) :
    b.responses.length = parts.length ∧
    ∀ i (hi : i < parts.length) (hib : i < b.responses.length),
      ∃ p : HttpResponse,
        deserializePart (parts.get ⟨i, hi⟩) = .ok p ∧
        p.status_code = (parts.get ⟨i, hi⟩).innerStatusCode ∧
        (if p.status_code ≥ 300 then handleErrorSingle (.statusError p)
         else handleResponseSingle p) = .ok (b.responses.get ⟨i, hib⟩) := by
  unfold batchHandleResponse at h
  split at h
  case h_1 => cases h
  case h_2 ps hps =>
    split at h
    case h_1 => cases h
    case h_2 rs hrs =>
      injection h with h
      subst h
      have hps2 : mapExcept deserializePart parts = .ok ps := hps
      obtain ⟨hlen1, hidx1⟩ := mapExcept_ok _ _ _ hps2
      obtain ⟨hlen2, hidx2⟩ := mapExcept_ok _ _ _ hrs
      constructor
      · show rs.length = parts.length
        rw [hlen2, hlen1]
      · intro i hi hib
        have hips : i < ps.length := by rw [hlen1]; exact hi
        have hirs : i < rs.length := hib
        refine ⟨ps.get ⟨i, hips⟩, hidx1 i hi hips, ?_, ?_⟩
        · have hd := hidx1 i hi hips
          unfold deserializePart at hd
          split at hd
          case h_1 => cases hd
          case h_2 => injection hd with hd; rw [← hd]
        · have hh := hidx2 i hips hirs
          unfold handlePart at hh
          exact hh

/-- C2 witness: a two-part batch (a 200 success part and a 400 failure part)
decodes to two outcomes in order, the second through the failure path. -/
theorem batch_decode_ordered_witness :
    (mkFCMBatchResponse
        [⟨some (.jobj [("name", .jstr "A")]), none, some (.jstr "A")⟩,
         ofException (mkExc .InvalidArgumentError (.jstr "oops")
           (some ⟨400, some (.jobj [("error", .jobj [("message", .jstr "oops"),
             ("status", .jstr "INVALID_ARGUMENT")])]), "y"⟩))]).responses.length
      = ([⟨"response-a", 200, "application/json", "x", some (.jobj [("name", .jstr "A")])⟩,
          ⟨"response-b", 400, "application/json", "y",
            some (.jobj [("error", .jobj [("message", .jstr "oops"),
              ("status", .jstr "INVALID_ARGUMENT")])])⟩] : List MimePart).length ∧
    ∃ p : HttpResponse,
      deserializePart (⟨"response-b", 400, "application/json", "y",
          some (.jobj [("error", .jobj [("message", .jstr "oops"),
            ("status", .jstr "INVALID_ARGUMENT")])])⟩ : MimePart) = .ok p ∧
      p.status_code = 400 ∧
      (if p.status_code ≥ 300 then handleErrorSingle (.statusError p)
       else handleResponseSingle p)
        = .ok (ofException (mkExc .InvalidArgumentError (.jstr "oops")
            (some ⟨400, some (.jobj [("error", .jobj [("message", .jstr "oops"),
              ("status", .jstr "INVALID_ARGUMENT")])]), "y"⟩))) := by
  have h := batch_decode_ordered
    [⟨"response-a", 200, "application/json", "x", some (.jobj [("name", .jstr "A")])⟩,
     ⟨"response-b", 400, "application/json", "y",
       some (.jobj [("error", .jobj [("message", .jstr "oops"),
         ("status", .jstr "INVALID_ARGUMENT")])])⟩]
    (mkFCMBatchResponse
      [⟨some (.jobj [("name", .jstr "A")]), none, some (.jstr "A")⟩,
       ofException (mkExc .InvalidArgumentError (.jstr "oops")
         (some ⟨400, some (.jobj [("error", .jobj [("message", .jstr "oops"),
           ("status", .jstr "INVALID_ARGUMENT")])]), "y"⟩))]) rfl
  exact ⟨h.1, h.2 1 (by decide) (by decide)⟩

theorem filter_length_split {α : Type} (p : α → Bool) (l : List α) :
    (l.filter (fun x => !p x)).length + (l.filter p).length = l.length := by
  induction l with
  | nil => rfl
  | cons x xs ih =>
      cases hx : p x <;> simp [List.filter_cons, hx, ← ih] <;> omega

theorem topicProcess_obj (entries : List JVal) :
    ∀ (i : Nat) (acc : TopicResultM),
      (∀ e ∈ entries, ∃ ef, e = .jobj ef) →
      topicProcessResults entries i acc
        = .ok ⟨acc.success_count + (entries.filter (fun e => !entryHasError e)).length,
               acc.failure_count + (entries.filter entryHasError).length,
               acc.errors ++ expectedTopicErrorsFrom i entries⟩ := by
  induction entries with
  | nil =>
      intro i acc h
      simp [topicProcessResults, expectedTopicErrorsFrom]
  | cons e rest ih =>
      intro i acc h
      obtain ⟨ef, rfl⟩ := h e (List.mem_cons_self _ _)
      have hrest : ∀ x ∈ rest, ∃ xf, x = .jobj xf :=
        fun x hx => h x (List.mem_cons_of_mem _ hx)
      unfold topicProcessResults
      cases hhe : dHas ef "error" with
      | true =>
          have hg : ∃ reason, dGet? ef "error" = some reason := by
            unfold dHas at hhe
            cases hgg : dGet? ef "error" with
            | none => rw [hgg] at hhe; cases hhe
            | some reason => exact ⟨reason, rfl⟩
          obtain ⟨reason, hg⟩ := hg
          simp only [topicStepEntry, hhe, hg, if_true]
          have hih := ih (i + 1)
            ⟨acc.success_count, acc.failure_count + 1, acc.errors ++ [⟨i, reason⟩]⟩ hrest
          rw [hih]
          simp [entryHasError, hhe, expectedTopicErrorsFrom, hg, List.filter_cons]
          omega
      | false =>
          have hg : dGet? ef "error" = none := by
            unfold dHas at hhe
            cases hgg : dGet? ef "error" with
            | none => rfl
            | some reason => rw [hgg] at hhe; cases hhe
          simp only [topicStepEntry, hhe, Bool.false_eq_true, if_false]
          have hih := ih (i + 1)
            ⟨acc.success_count + 1, acc.failure_count, acc.errors⟩ hrest
          rw [hih]
          simp [entryHasError, hhe, expectedTopicErrorsFrom, hg, List.filter_cons]
          omega

/-- C8: `decode_topic_result` raises exactly when the body carries no usable
`results` (absent key, `null`, or an empty array); on a non-empty array of
object entries it returns per-entry counts — failures are the entries with an
`error` field, recorded in order with their index and reason — whose sum is
the number of entries. -/
theorem topic_result_decode
    (fields : List (String × JVal)) (entries : List JVal) (r : HttpResponse)
    (hbody : r.jsonBody = some (.jobj fields)) :
    ((dGet? fields "results" = none ∨ dGet? fields "results" = some .jnull ∨
      dGet? fields "results" = some (.jarr [])) →
      topicHandleResponse r = .error "ValueError") ∧
    (dGet? fields "results" = some (.jarr entries) → entries ≠ [] →
      (∀ e ∈ entries, ∃ ef, e = .jobj ef) →
      topicHandleResponse r
        = .ok ⟨(entries.filter (fun e => !entryHasError e)).length,
               (entries.filter entryHasError).length,
               expectedTopicErrorsFrom 0 entries⟩ ∧
      (entries.filter (fun e => !entryHasError e)).length
        + (entries.filter entryHasError).length = entries.length) := by
  constructor
  · intro hres
    unfold topicHandleResponse
    rcases hres with hres | hres | hres <;>
      simp only [hbody, dGetD, hres, Option.getD_none, Option.getD_some] <;> rfl
  · intro hres hne hobj
    refine ⟨?_, filter_length_split entryHasError entries⟩
    unfold topicHandleResponse
    simp only [hbody, dGetD, hres, Option.getD_some]
    have htruthy : (JVal.jarr entries).truthy = true := by
      cases entries with
      | nil => exact absurd rfl hne
      | cons x xs => rfl
    simp only [htruthy, Bool.not_true, Bool.false_eq_true, if_false]
    rw [topicProcess_obj entries 0 ⟨0, 0, []⟩ hobj]
    simp

/-- C8 witness: the body `\x7b"results": [\x7b\x7d, \x7b\x7d,
\x7b"error": "INVALID_ARGUMENT"\x7d]\x7d` yields success_count 2,
failure_count 1 and the error recorded at index 2; and a body with an empty
results array raises. -/
theorem topic_result_decode_witness :
    topicHandleResponse ⟨200, some (.jobj [("results", .jarr
        [.jobj [], .jobj [], .jobj [("error", .jstr "INVALID_ARGUMENT")]])]), ""⟩
      = .ok ⟨([(JVal.jobj []), .jobj [], .jobj [("error", .jstr "INVALID_ARGUMENT")]].filter
            (fun e => !entryHasError e)).length,
          ([(JVal.jobj []), .jobj [], .jobj [("error", .jstr "INVALID_ARGUMENT")]].filter
            entryHasError).length,
          expectedTopicErrorsFrom 0
            [(JVal.jobj []), .jobj [], .jobj [("error", .jstr "INVALID_ARGUMENT")]]⟩ ∧
    topicHandleResponse ⟨200, some (.jobj [("results", .jarr [])]), ""⟩
      = .error "ValueError" := by
  constructor
  · exact ((topic_result_decode
      [("results", .jarr [.jobj [], .jobj [], .jobj [("error", .jstr "INVALID_ARGUMENT")]])]
      [.jobj [], .jobj [], .jobj [("error", .jstr "INVALID_ARGUMENT")]]
      ⟨200, some (.jobj [("results", .jarr
        [.jobj [], .jobj [], .jobj [("error", .jstr "INVALID_ARGUMENT")]])]), ""⟩
      rfl).2 rfl (by simp) (by
        intro e he
        rcases List.mem_cons.mp he with rfl | he2
        · exact ⟨[], rfl⟩
        rcases List.mem_cons.mp he2 with rfl | he3
        · exact ⟨[], rfl⟩
        rcases List.mem_cons.mp he3 with rfl | he4
        · exact ⟨[("error", .jstr "INVALID_ARGUMENT")], rfl⟩
        · cases he4)).1
  · exact (topic_result_decode [("results", .jarr [])] []
      ⟨200, some (.jobj [("results", .jarr [])]), ""⟩ rfl).1 (Or.inr (Or.inr rfl))

/-- C2 counterexample: a structurally valid one-part multipart batch whose
failure part's body decodes to a JSON array makes `decode_batch` raise
(through `_parse_platform_error`) instead of returning a one-outcome
BatchResult. -/
theorem batch_decode_ordered_cex :
    batchHandleResponse (.multipart
        [⟨"response-a", 400, "application/json", "[]", some (.jarr [])⟩])
      = .error "AttributeError" := rfl
